import Mathlib

/-!
Shallow embedding of `internal/provider/resource_branch.go` from
terraform-provider-neon: the branch resource's schema, validation,
state mapper (`updateStateBranch`) and the CRUD/import reconciler
functions, together with theorems about them.

Conventions of the embedding:
* Go `time.Time` values (UTC, whole seconds) are modelled by `GoTime`,
  seconds since 0001-01-01T00:00:00Z, matching Go's internal wall-clock
  representation; `time.Time{}.Unix() = -62135596800`.
* The Terraform `*schema.ResourceData` attribute bag is modelled by a
  typed record `ResourceData`; unset attributes are `none`.  `d.Get`
  returns the zero value when unset and `d.GetOk` reports whether the
  attribute is set to a non-zero value, as in the SDK.
* `d.Set` on this resource's keys cannot fail (all values are produced
  with the schema's types), so `updateStateBranch` is total.
* The remote client (`neon.Client`) is a record of response functions;
  each reconciler function additionally returns the list of remote
  calls it issued (its trace) and its diagnostics (a list of error
  summaries, as produced by `diag.FromErr`).
-/

namespace NeonBranch

/-- Seconds from 0001-01-01T00:00:00Z to the Unix epoch (Go's `unixToInternal`). -/
def unixToInternal : Int := 62135596800

/-- Days from 0001-01-01 to 1970-01-01 in the proleptic Gregorian calendar. -/
def daysToEpoch : Int := 719162

/-- Go `time.Time` (UTC wall clock, whole seconds since 0001-01-01T00:00:00Z). -/
structure GoTime where
  abs : Int
deriving DecidableEq, Repr

/-- Go `t.Unix()`: seconds since the Unix epoch. -/
def GoTime.Unix (t : GoTime) : Int := t.abs - unixToInternal

/-- Go `time.Unix(sec, 0)` (in UTC). -/
def timeUnix (sec : Int) : GoTime := ⟨sec + unixToInternal⟩

/-- The zero `time.Time{}`: 0001-01-01T00:00:00Z. -/
def GoTime.zero : GoTime := ⟨0⟩

/-- Left-pad the decimal rendering of `n` with zeros to width `w`. -/
def pad (w : Nat) (n : Nat) : String :=
  let s := toString n
  String.mk (List.replicate (w - s.length) '0') ++ s

/-- Civil date from a day count relative to 1970-01-01
(proleptic Gregorian; Howard Hinnant's algorithm, as used by Go's
`absDate`): returns (year, month, day). -/
def civilFromDays (z : Int) : Int × Nat × Nat :=
  let z' := z + 719468
  let era := z'.fdiv 146097
  let doe := (z' - era * 146097).toNat
  let yoe := (doe - doe / 1460 + doe / 36524 - doe / 146096) / 365
  let y := (yoe : Int) + era * 400
  let doy := doe - (365 * yoe + yoe / 4 - yoe / 100)
  let mp := (5 * doy + 2) / 153
  let d := doy - (153 * mp + 2) / 5 + 1
  let m := if mp < 10 then mp + 3 else mp - 9
  (if m ≤ 2 then y + 1 else y, m, d)

/-- Go `t.Format(time.RFC3339)` for a UTC time with zero nanoseconds:
`yyyy-mm-ddThh:mm:ssZ`. -/
def formatRFC3339 (t : GoTime) : String :=
  let days := t.abs.fdiv 86400
  let tod := (t.abs.fmod 86400).toNat
  let ymd := civilFromDays (days - daysToEpoch)
  pad 4 ymd.1.toNat ++ "-" ++ pad 2 ymd.2.1 ++ "-" ++ pad 2 ymd.2.2 ++ "T" ++
    pad 2 (tod / 3600) ++ ":" ++ pad 2 (tod % 3600 / 60) ++ ":" ++ pad 2 (tod % 60) ++ "Z"

/-- The remote `neon.Branch` entity (fields consumed by the state mapper). -/
structure Branch where
  ID : String := ""
  Name : String := ""
  ParentID : String := ""
  ParentLsn : String := ""
  ParentTimestamp : GoTime := ⟨0⟩
  LogicalSize : Int := 0
  PhysicalSize : Int := 0
  CurrentState : String := ""
  PendingState : String := ""
  CreatedAt : GoTime := ⟨0⟩
  UpdatedAt : GoTime := ⟨0⟩
deriving DecidableEq, Repr

end NeonBranch

namespace NeonBranch

/-- Terraform value types used in this resource's schema. -/
inductive ValueType
  | typeString
  | typeInt
deriving DecidableEq, Repr

/-- One entry of the resource schema (the static metadata the claims use). -/
structure SchemaEntry where
  SchemaType : ValueType
  Required : Bool := false
  Optional : Bool := false
  Computed : Bool := false
  ForceNew : Bool := false
  ConflictsWith : List String := []
  hasValidateFunc : Bool := false
deriving DecidableEq, Repr

/-- The `Schema` map of `resourceBranch()`, as an association list in source order. -/
def resourceBranchSchema : List (String × SchemaEntry) :=
  [ ("project_id", { SchemaType := .typeString, Required := true }),
    ("name", { SchemaType := .typeString, Optional := true, Computed := true }),
    ("parent_id", { SchemaType := .typeString, Optional := true, Computed := true }),
    ("parent_lsn", { SchemaType := .typeString, Optional := true, Computed := true,
                     ForceNew := true, ConflictsWith := ["parent_timestamp"] }),
    ("parent_timestamp", { SchemaType := .typeInt, Optional := true, Computed := true,
                           ForceNew := true, hasValidateFunc := true,
                           ConflictsWith := ["parent_lsn"] }),
    ("physical_size_size", { SchemaType := .typeInt, Computed := true }),
    ("logical_size", { SchemaType := .typeInt, Computed := true }),
    ("current_state", { SchemaType := .typeString, Computed := true }),
    ("pending_state", { SchemaType := .typeString, Computed := true }),
    ("created_at", { SchemaType := .typeString, Computed := true }),
    ("updated_at", { SchemaType := .typeString, Computed := true }) ]

/-- `intValidationNotNegative(v, s)`: returns `(warnings, errors)`. -/
def intValidationNotNegative (v : Int) (s : String) : List String × List String :=
  if v < 0 then ([], [s ++ " must be not negative"]) else ([], [])

/-- The local attribute bag of the branch resource (`*schema.ResourceData`),
typed per the schema; `none` means the attribute is unset. -/
structure ResourceData where
  id : String := ""
  project_id : Option String := none
  name : Option String := none
  parent_id : Option String := none
  parent_lsn : Option String := none
  parent_timestamp : Option Int := none
  logical_size : Option Int := none
  physical_size_size : Option Int := none
  current_state : Option String := none
  pending_state : Option String := none
  created_at : Option String := none
  updated_at : Option String := none
deriving DecidableEq, Repr

/-- `d.Get(k).(string)`: zero value `""` when unset. -/
def getString (o : Option String) : String := o.getD ""

/-- `d.GetOk(k)` for a string attribute: the value, and whether it is
set to a non-zero value. -/
def getOkString (o : Option String) : String × Bool :=
  match o with
  | some v => (v, v ≠ "")
  | none => ("", false)

/-- `d.GetOk(k)` for an int attribute: the value, and whether it is
set to a non-zero value. -/
def getOkInt (o : Option Int) : Int × Bool :=
  match o with
  | some v => (v, v ≠ 0)
  | none => (0, false)

/-- `updateStateBranch(d, v)`: writes each remote field into the local
state.  `d.Set` cannot fail on this resource's keys, so the Go error
result is always `nil` and the function is total here. -/
def updateStateBranch (d : ResourceData) (v : Branch) : ResourceData :=
  { d with
    name := some v.Name
    parent_id := some v.ParentID
    parent_lsn := some v.ParentLsn
    parent_timestamp := some v.ParentTimestamp.Unix
    logical_size := some v.LogicalSize
    physical_size_size := some v.PhysicalSize
    current_state := some v.CurrentState
    pending_state := some v.PendingState
    created_at := some (formatRFC3339 v.CreatedAt)
    updated_at := some (formatRFC3339 v.CreatedAt) }

/-- `neon.BranchCreateRequestBranch`. -/
structure BranchCreateRequestBranch where
  ParentID : String := ""
  Name : String := ""
  ParentLsn : String := ""
  ParentTimestamp : Option GoTime := none
deriving DecidableEq, Repr

/-- `neon.BranchCreateRequest`. -/
structure BranchCreateRequest where
  Branch : BranchCreateRequestBranch
deriving DecidableEq, Repr

/-- `neon.BranchUpdateRequestBranch`. -/
structure BranchUpdateRequestBranch where
  Name : String
deriving DecidableEq, Repr

/-- `neon.BranchUpdateRequest`. -/
structure BranchUpdateRequest where
  Branch : BranchUpdateRequestBranch
deriving DecidableEq, Repr

/-- A remote API response carrying a branch entity (`resp.Branch`). -/
structure BranchResponse where
  Branch : Branch
deriving DecidableEq, Repr

/-- One remote API call, with the arguments it was issued with. -/
inductive RemoteCall
  | create (projectID : String) (cfg : BranchCreateRequest)
  | get (projectID branchID : String)
  | update (projectID branchID : String) (cfg : BranchUpdateRequest)
  | delete (projectID branchID : String)
deriving DecidableEq, Repr

/-- The remote client (`neon.Client`), as the responses it returns. -/
structure Client where
  CreateProjectBranch : String → BranchCreateRequest → Except String BranchResponse
  GetProjectBranch : String → String → Except String BranchResponse
  UpdateProjectBranch : String → String → BranchUpdateRequest → Except String BranchResponse
  DeleteProjectBranch : String → String → Except String BranchResponse

/-- Result of one reconciler operation: the new local state, the
diagnostics (error summaries, as built by `diag.FromErr`; empty means
success), and the trace of remote calls issued. -/
def OpResult := ResourceData × List String × List RemoteCall

/-- `resourceBranchDelete`. -/
def resourceBranchDelete (meta : Client) (d : ResourceData) : OpResult :=
  let call := RemoteCall.delete (getString d.project_id) d.id
  match meta.DeleteProjectBranch (getString d.project_id) d.id with
  | .error e => (d, [e], [call])
  | .ok _ => (updateStateBranch { d with id := "" } {}, [], [call])

/-- `resourceBranchUpdate`. -/
def resourceBranchUpdate (meta : Client) (d : ResourceData) : OpResult :=
  let vok := getOkString d.name
  if vok.2 = false ∨ vok.1 = "" then (d, [], [])
  else
    let cfg : BranchUpdateRequest := ⟨⟨vok.1⟩⟩
    let call := RemoteCall.update (getString d.project_id) d.id cfg
    match meta.UpdateProjectBranch (getString d.project_id) d.id cfg with
    | .error e => (d, [e], [call])
    | .ok resp => (updateStateBranch d resp.Branch, [], [call])

/-- `resourceBranchRead`. -/
def resourceBranchRead (meta : Client) (d : ResourceData) : OpResult :=
  let call := RemoteCall.get (getString d.project_id) d.id
  match meta.GetProjectBranch (getString d.project_id) d.id with
  | .error e => (d, [e], [call])
  | .ok resp => (updateStateBranch d resp.Branch, [], [call])

/-- The creation payload `cfg` built by `resourceBranchCreate`
(source lines 187–198): the base request from `parent_id`, `name`,
`parent_lsn`, plus `ParentTimestamp` when `GetOk` reports
`parent_timestamp` set and its value is positive. -/
def createCfg (d : ResourceData) : BranchCreateRequest :=
  let cfg0 : BranchCreateRequest :=
    ⟨⟨getString d.parent_id, getString d.name, getString d.parent_lsn, none⟩⟩
  let vok := getOkInt d.parent_timestamp
  if vok.2 = true ∧ 0 < vok.1 then
    { cfg0 with Branch := { cfg0.Branch with ParentTimestamp := some (timeUnix vok.1) } }
  else cfg0

/-- `resourceBranchCreate`. -/
def resourceBranchCreate (meta : Client) (d : ResourceData) : OpResult :=
  let cfg := createCfg d
  let call := RemoteCall.create (getString d.project_id) cfg
  match meta.CreateProjectBranch (getString d.project_id) cfg with
  | .error e => (d, [e], [call])
  | .ok resp => (updateStateBranch { d with id := resp.Branch.ID } resp.Branch, [], [call])

/-- `resourceBranchImport`: runs a Read; on any error diagnostic aborts
with the first diagnostic's summary, otherwise returns the single
resource.  Also returns the trace of remote calls. -/
def resourceBranchImport (meta : Client) (d : ResourceData) :
    Except String (List ResourceData) × List RemoteCall :=
  let r := resourceBranchRead meta d
  if r.2.1 ≠ [] then (.error (r.2.1.headD ""), r.2.2)
  else (.ok [r.1], r.2.2)

end NeonBranch

namespace NeonBranch

/-! Concrete fixtures used by witnesses and counterexamples. -/

/-- A concrete remote branch entity (created at the Unix epoch, last
updated at 1700000000 = 2023-11-14T22:13:20Z). -/
def exBranch : Branch :=
  { ID := "br-123", Name := "dev", ParentID := "main", ParentLsn := "0/1708A40",
    ParentTimestamp := timeUnix 7, LogicalSize := 42, PhysicalSize := 17,
    CurrentState := "ready", PendingState := "",
    CreatedAt := timeUnix 0, UpdatedAt := timeUnix 1700000000 }

/-- A remote client whose every call succeeds, returning `exBranch`. -/
def okClient : Client :=
  { CreateProjectBranch := fun _ _ => .ok ⟨exBranch⟩,
    GetProjectBranch := fun _ _ => .ok ⟨exBranch⟩,
    UpdateProjectBranch := fun _ _ _ => .ok ⟨exBranch⟩,
    DeleteProjectBranch := fun _ _ => .ok ⟨exBranch⟩ }

/-- A remote client whose every call fails with the same error. -/
def errClient : Client :=
  { CreateProjectBranch := fun _ _ => .error "remote boom",
    GetProjectBranch := fun _ _ => .error "remote boom",
    UpdateProjectBranch := fun _ _ _ => .error "remote boom",
    DeleteProjectBranch := fun _ _ => .error "remote boom" }

/-- A concrete prior local state of a live branch. -/
def exState : ResourceData :=
  { id := "br-123", project_id := some "p1", name := some "dev",
    parent_id := some "main", parent_timestamp := some 5,
    current_state := some "ready" }

/-- A concrete local state whose `name` attribute is unset. -/
def exStateNoName : ResourceData :=
  { id := "br-123", project_id := some "p1" }

/-- A concrete desired state for a fresh create (no live id yet). -/
def exDesired : ResourceData :=
  { id := "", project_id := some "p1", name := some "dev",
    parent_id := some "main", parent_timestamp := some 1700000000 }

/-! Helper lemmas. -/

/-- Rendering of the zero `time.Time`. -/
theorem formatRFC3339_zero : formatRFC3339 ⟨0⟩ = "0001-01-01T00:00:00Z" := by decide

/-- `Unix()` of the zero `time.Time`. -/
theorem zero_time_unix : GoTime.Unix ⟨0⟩ = -62135596800 := by decide

/-- On a successful remote delete, `resourceBranchDelete` clears the id
and maps the all-zero entity. -/
theorem resourceBranchDelete_ok (meta : Client) (d : ResourceData) (r : BranchResponse)
    (h : meta.DeleteProjectBranch (getString d.project_id) d.id = .ok r) :
    resourceBranchDelete meta d =
      (updateStateBranch { d with id := "" } {}, [],
       [RemoteCall.delete (getString d.project_id) d.id]) := by
  simp [resourceBranchDelete, h]

/-- On a failed remote delete, `resourceBranchDelete` surfaces the error
and leaves the state untouched. -/
theorem resourceBranchDelete_err (meta : Client) (d : ResourceData) (e : String)
    (h : meta.DeleteProjectBranch (getString d.project_id) d.id = .error e) :
    resourceBranchDelete meta d =
      (d, [e], [RemoteCall.delete (getString d.project_id) d.id]) := by
  simp [resourceBranchDelete, h]

/-- On a successful remote create, `resourceBranchCreate` stores the
returned id and maps the returned entity. -/
theorem resourceBranchCreate_ok (meta : Client) (d : ResourceData) (r : BranchResponse)
    (h : meta.CreateProjectBranch (getString d.project_id) (createCfg d) = .ok r) :
    resourceBranchCreate meta d =
      (updateStateBranch { d with id := r.Branch.ID } r.Branch, [],
       [RemoteCall.create (getString d.project_id) (createCfg d)]) := by
  simp [resourceBranchCreate, h]

/-- On a failed remote create, `resourceBranchCreate` surfaces the error
and leaves the state untouched. -/
theorem resourceBranchCreate_err (meta : Client) (d : ResourceData) (e : String)
    (h : meta.CreateProjectBranch (getString d.project_id) (createCfg d) = .error e) :
    resourceBranchCreate meta d =
      (d, [e], [RemoteCall.create (getString d.project_id) (createCfg d)]) := by
  simp [resourceBranchCreate, h]

/-- On a successful remote get, `resourceBranchRead` maps the returned
entity over the current state. -/
theorem resourceBranchRead_ok (meta : Client) (d : ResourceData) (r : BranchResponse)
    (h : meta.GetProjectBranch (getString d.project_id) d.id = .ok r) :
    resourceBranchRead meta d =
      (updateStateBranch d r.Branch, [],
       [RemoteCall.get (getString d.project_id) d.id]) := by
  simp [resourceBranchRead, h]

/-- On a failed remote get, `resourceBranchRead` surfaces the error. -/
theorem resourceBranchRead_err (meta : Client) (d : ResourceData) (e : String)
    (h : meta.GetProjectBranch (getString d.project_id) d.id = .error e) :
    resourceBranchRead meta d =
      (d, [e], [RemoteCall.get (getString d.project_id) d.id]) := by
  simp [resourceBranchRead, h]

end NeonBranch

namespace NeonBranch

/-- C7: `intValidationNotNegative` fails exactly when the value is
negative, with an error message naming the offending field, and for
every non-negative value returns no errors and no warnings; it depends
on no other field. -/
theorem intValidationNotNegative_spec (v : Int) (s : String) :
    intValidationNotNegative v s =
      ([], if v < 0 then [s ++ " must be not negative"] else []) ∧
    ((intValidationNotNegative v s).2 ≠ [] ↔ v < 0) := by
  unfold intValidationNotNegative
  constructor
  · split <;> rfl
  · split <;> simp_all

/-- C8 counterexample: the branch resource's schema has no attribute
named `physical_size_mb` nor one named `logical_size_mb`. -/
theorem resourceBranchSchema_no_mb_names :
    (resourceBranchSchema.map Prod.fst).contains "physical_size_mb" = false ∧
    (resourceBranchSchema.map Prod.fst).contains "logical_size_mb" = false := by
  decide

/-- C8 (amended): the schema's computed integer size attributes are
named `physical_size_size` and `logical_size`. -/
theorem resourceBranchSchema_size_attrs :
    resourceBranchSchema.lookup "physical_size_size" =
      some { SchemaType := .typeInt, Computed := true } ∧
    resourceBranchSchema.lookup "logical_size" =
      some { SchemaType := .typeInt, Computed := true } := by
  decide

/-- C10: the state mapper always writes both `created_at` and
`updated_at` as the RFC3339 rendering of the remote entity's
`CreatedAt`, so the two stored attributes are equal after every
application. -/
theorem updateStateBranch_created_updated_equal (d : ResourceData) (v : Branch) :
    (updateStateBranch d v).created_at = some (formatRFC3339 v.CreatedAt) ∧
    (updateStateBranch d v).updated_at = some (formatRFC3339 v.CreatedAt) ∧
    (updateStateBranch d v).updated_at = (updateStateBranch d v).created_at :=
  ⟨rfl, rfl, rfl⟩

/-- C1: at a remote entity whose creation and last-update timestamps
differ (`CreatedAt` = epoch, `UpdatedAt` = 1700000000), the state
mapper writes `updated_at` as the rendering of `CreatedAt`, not of the
corresponding remote timestamp `UpdatedAt`. -/
theorem updateStateBranch_updated_at_from_created_at :
    (updateStateBranch {} exBranch).updated_at = some "1970-01-01T00:00:00Z" ∧
    formatRFC3339 exBranch.UpdatedAt = "2023-11-14T22:13:20Z" ∧
    (updateStateBranch {} exBranch).updated_at ≠
      some (formatRFC3339 exBranch.UpdatedAt) := by
  refine ⟨by decide, by decide, by decide⟩

end NeonBranch

namespace NeonBranch

/-- When `name` is unset or zero, `resourceBranchUpdate` short-circuits. -/
theorem resourceBranchUpdate_skip (meta : Client) (d : ResourceData)
    (h : (getOkString d.name).2 = false ∨ (getOkString d.name).1 = "") :
    resourceBranchUpdate meta d = (d, [], []) := by
  simp only [resourceBranchUpdate]
  rw [if_pos h]

/-- On a successful remote rename, `resourceBranchUpdate` maps the
returned entity. -/
theorem resourceBranchUpdate_ok (meta : Client) (d : ResourceData) (r : BranchResponse)
    (hn : ¬((getOkString d.name).2 = false ∨ (getOkString d.name).1 = ""))
    (h : meta.UpdateProjectBranch (getString d.project_id) d.id
        ⟨⟨(getOkString d.name).1⟩⟩ = .ok r) :
    resourceBranchUpdate meta d =
      (updateStateBranch d r.Branch, [],
       [RemoteCall.update (getString d.project_id) d.id ⟨⟨(getOkString d.name).1⟩⟩]) := by
  simp only [resourceBranchUpdate]
  rw [if_neg hn, h]

/-- On a failed remote rename, `resourceBranchUpdate` surfaces the error. -/
theorem resourceBranchUpdate_err (meta : Client) (d : ResourceData) (e : String)
    (hn : ¬((getOkString d.name).2 = false ∨ (getOkString d.name).1 = ""))
    (h : meta.UpdateProjectBranch (getString d.project_id) d.id
        ⟨⟨(getOkString d.name).1⟩⟩ = .error e) :
    resourceBranchUpdate meta d =
      (d, [e], [RemoteCall.update (getString d.project_id) d.id
        ⟨⟨(getOkString d.name).1⟩⟩]) := by
  simp only [resourceBranchUpdate]
  rw [if_neg hn, h]

/-- C4: the creation payload is built exactly from `project_id` (the
call's first argument), `parent_id`, `name` and `parent_lsn`, and
carries a materialized `ParentTimestamp` (epoch seconds converted to a
time value) iff the `parent_timestamp` attribute is set and strictly
positive. -/
theorem resourceBranchCreate_payload (meta : Client) (d : ResourceData) :
    (resourceBranchCreate meta d).2.2 =
      [RemoteCall.create (getString d.project_id) (createCfg d)] ∧
    (createCfg d).Branch.ParentID = getString d.parent_id ∧
    (createCfg d).Branch.Name = getString d.name ∧
    (createCfg d).Branch.ParentLsn = getString d.parent_lsn ∧
    (createCfg d).Branch.ParentTimestamp =
      (match d.parent_timestamp with
       | some v => if 0 < v then some (timeUnix v) else none
       | none => none) := by
  refine ⟨?_, ?_, ?_, ?_, ?_⟩
  · cases hc : meta.CreateProjectBranch (getString d.project_id) (createCfg d) with
    | error e => rw [resourceBranchCreate_err meta d e hc]
    | ok r => rw [resourceBranchCreate_ok meta d r hc]
  · unfold createCfg
    dsimp only
    split <;> rfl
  · unfold createCfg
    dsimp only
    split <;> rfl
  · unfold createCfg
    dsimp only
    split <;> rfl
  · cases hv : d.parent_timestamp with
    | none => simp [createCfg, getOkInt, hv]
    | some v =>
      by_cases h0 : 0 < v
      · have hne : v ≠ 0 := by omega
        simp [createCfg, getOkInt, hv, h0, hne]
      · simp [createCfg, getOkInt, hv, h0]

/-- C5: Update with unset or empty `name` returns success, issues no
remote call, and leaves the whole local state (including `id`)
unchanged. -/
theorem resourceBranchUpdate_noop (meta : Client) (d : ResourceData)
    (h : d.name = none ∨ d.name = some "") :
    resourceBranchUpdate meta d = (d, [], []) := by
  apply resourceBranchUpdate_skip
  rcases h with h | h <;> simp [getOkString, h]

/-- C5 witness. -/
theorem resourceBranchUpdate_noop_witness :
    resourceBranchUpdate okClient exStateNoName = (exStateNoName, [], []) :=
  resourceBranchUpdate_noop okClient exStateNoName (Or.inl rfl)

/-- C6: when the remote call fails, Create leaves the state untouched
(so a previously absent resource stays absent) and Delete leaves the
state untouched (so the resource stays present); both surface the
remote error verbatim as the sole diagnostic and issue exactly one
remote call (no retry). -/
theorem branch_remote_failure_frame (meta : Client) (d : ResourceData) (e : String) :
    ((∀ cfg, meta.CreateProjectBranch (getString d.project_id) cfg = .error e) →
      (resourceBranchCreate meta d).1 = d ∧
      (resourceBranchCreate meta d).2.1 = [e] ∧
      (resourceBranchCreate meta d).2.2.length = 1) ∧
    (meta.DeleteProjectBranch (getString d.project_id) d.id = .error e →
      (resourceBranchDelete meta d).1 = d ∧
      (resourceBranchDelete meta d).2.1 = [e] ∧
      (resourceBranchDelete meta d).2.2.length = 1) := by
  constructor
  · intro h
    rw [resourceBranchCreate_err meta d e (h (createCfg d))]
    exact ⟨rfl, rfl, rfl⟩
  · intro h
    rw [resourceBranchDelete_err meta d e h]
    exact ⟨rfl, rfl, rfl⟩

/-- C6 witness. -/
theorem branch_remote_failure_frame_witness :
    ((resourceBranchCreate errClient exState).1 = exState ∧
     (resourceBranchCreate errClient exState).2.1 = ["remote boom"] ∧
     (resourceBranchCreate errClient exState).2.2.length = 1) ∧
    ((resourceBranchDelete errClient exState).1 = exState ∧
     (resourceBranchDelete errClient exState).2.1 = ["remote boom"] ∧
     (resourceBranchDelete errClient exState).2.2.length = 1) :=
  ⟨(branch_remote_failure_frame errClient exState "remote boom").1 (fun _ => rfl),
   (branch_remote_failure_frame errClient exState "remote boom").2 rfl⟩

/-- C9: Import runs a Read; when the Read yields no error diagnostic it
returns the single populated resource, and when the Read yields error
diagnostics it aborts with exactly the first diagnostic's summary and
returns no resource. -/
theorem resourceBranchImport_spec (meta : Client) (d : ResourceData) :
    ((resourceBranchRead meta d).2.1 = [] →
      (resourceBranchImport meta d).1 = .ok [(resourceBranchRead meta d).1]) ∧
    (∀ e rest, (resourceBranchRead meta d).2.1 = e :: rest →
      (resourceBranchImport meta d).1 = .error e) := by
  constructor
  · intro h
    simp [resourceBranchImport, h]
  · intro e rest h
    simp [resourceBranchImport, h]

/-- C9 witness. -/
theorem resourceBranchImport_spec_witness :
    (resourceBranchImport okClient exState).1 =
      .ok [(resourceBranchRead okClient exState).1] ∧
    (resourceBranchImport errClient exState).1 = .error "remote boom" :=
  ⟨(resourceBranchImport_spec okClient exState).1 (by decide),
   (resourceBranchImport_spec errClient exState).2 "remote boom" [] (by decide)⟩

end NeonBranch

namespace NeonBranch

/-- C2 counterexample: after a successful Delete, `parent_timestamp`
holds `-62135596800` (the `Unix()` of the zero timestamp) and
`created_at` holds `"0001-01-01T00:00:00Z"`, not the zero values `0`
and `""` of those computed attributes. -/
theorem resourceBranchDelete_not_all_zero :
    (resourceBranchDelete okClient exState).2.1 = [] ∧
    (resourceBranchDelete okClient exState).1.parent_timestamp = some (-62135596800) ∧
    (resourceBranchDelete okClient exState).1.created_at = some "0001-01-01T00:00:00Z" ∧
    (resourceBranchDelete okClient exState).1.parent_timestamp ≠ some 0 ∧
    (resourceBranchDelete okClient exState).1.created_at ≠ some "" := by
  refine ⟨by decide, by decide, by decide, by decide, by decide⟩

/-- C2 (amended): a Delete whose remote call succeeds leaves `id = ""`,
clears `name`, `parent_id`, `parent_lsn`, `current_state` and
`pending_state` to the empty string and both sizes to `0`, but stores
`parent_timestamp = -62135596800` and renders both timestamps as
`"0001-01-01T00:00:00Z"` (the mapping of the all-zero entity), for
every prior local state. -/
theorem resourceBranchDelete_success_state (meta : Client) (d : ResourceData)
    (r : BranchResponse)
    (h : meta.DeleteProjectBranch (getString d.project_id) d.id = .ok r) :
    resourceBranchDelete meta d =
      ({ d with
          id := "", name := some "", parent_id := some "",
          parent_lsn := some "", parent_timestamp := some (-62135596800),
          logical_size := some 0, physical_size_size := some 0,
          current_state := some "", pending_state := some "",
          created_at := some "0001-01-01T00:00:00Z",
          updated_at := some "0001-01-01T00:00:00Z" }, [],
       [RemoteCall.delete (getString d.project_id) d.id]) := by
  rw [resourceBranchDelete_ok meta d r h]
  simp [updateStateBranch, formatRFC3339_zero, zero_time_unix]

/-- C2 witness. -/
theorem resourceBranchDelete_success_state_witness :
    resourceBranchDelete okClient exState =
      ({ exState with
          id := "", name := some "", parent_id := some "",
          parent_lsn := some "", parent_timestamp := some (-62135596800),
          logical_size := some 0, physical_size_size := some 0,
          current_state := some "", pending_state := some "",
          created_at := some "0001-01-01T00:00:00Z",
          updated_at := some "0001-01-01T00:00:00Z" }, [],
       [RemoteCall.delete "p1" "br-123"]) :=
  resourceBranchDelete_success_state okClient exState ⟨exBranch⟩ rfl

/-- C3 counterexample: starting from a state satisfying the invariant
(`parent_timestamp = some 5 ≥ 0`), a successful Delete stores
`parent_timestamp = some (-62135596800) < 0`, violating it. -/
theorem delete_violates_parent_timestamp_invariant :
    exState.parent_timestamp = some 5 ∧ (0:Int) ≤ 5 ∧
    (resourceBranchDelete okClient exState).2.1 = [] ∧
    (resourceBranchDelete okClient exState).1.parent_timestamp = some (-62135596800) ∧
    (-62135596800 : Int) < 0 := by
  refine ⟨by decide, by decide, by decide, by decide, by decide⟩

/-- C3 (amended): Create, Read, Update and Import preserve the
invariant that a set `parent_timestamp` is ≥ 0, provided the prior
state satisfies it and every entity returned by the remote carries a
parent timestamp at or after the Unix epoch; a successful Delete,
however, always stores `parent_timestamp = -62135596800 < 0`. -/
theorem branchOps_parent_timestamp_invariant (meta : Client) (d : ResourceData)
    (hptd : ∀ v, d.parent_timestamp = some v → 0 ≤ v)
    (hcr : ∀ p cfg r, meta.CreateProjectBranch p cfg = .ok r →
      0 ≤ r.Branch.ParentTimestamp.Unix)
    (hget : ∀ p i r, meta.GetProjectBranch p i = .ok r →
      0 ≤ r.Branch.ParentTimestamp.Unix)
    (hupd : ∀ p i cfg r, meta.UpdateProjectBranch p i cfg = .ok r →
      0 ≤ r.Branch.ParentTimestamp.Unix) :
    (∀ v, (resourceBranchCreate meta d).1.parent_timestamp = some v → 0 ≤ v) ∧
    (∀ v, (resourceBranchRead meta d).1.parent_timestamp = some v → 0 ≤ v) ∧
    (∀ v, (resourceBranchUpdate meta d).1.parent_timestamp = some v → 0 ≤ v) ∧
    (∀ ds d2 v, (resourceBranchImport meta d).1 = .ok ds → d2 ∈ ds →
      d2.parent_timestamp = some v → 0 ≤ v) ∧
    ((resourceBranchDelete meta d).2.1 = [] →
      (resourceBranchDelete meta d).1.parent_timestamp = some (-62135596800)) := by
  refine ⟨?_, ?_, ?_, ?_, ?_⟩
  · intro v hv
    cases hc : meta.CreateProjectBranch (getString d.project_id) (createCfg d) with
    | error e =>
      rw [resourceBranchCreate_err meta d e hc] at hv
      exact hptd v hv
    | ok r =>
      rw [resourceBranchCreate_ok meta d r hc] at hv
      simp [updateStateBranch] at hv
      have h0 := hcr _ _ r hc
      omega
  · intro v hv
    cases hg : meta.GetProjectBranch (getString d.project_id) d.id with
    | error e =>
      rw [resourceBranchRead_err meta d e hg] at hv
      exact hptd v hv
    | ok r =>
      rw [resourceBranchRead_ok meta d r hg] at hv
      simp [updateStateBranch] at hv
      have h0 := hget _ _ r hg
      omega
  · intro v hv
    by_cases hn : (getOkString d.name).2 = false ∨ (getOkString d.name).1 = ""
    · rw [resourceBranchUpdate_skip meta d hn] at hv
      exact hptd v hv
    · cases hu : meta.UpdateProjectBranch (getString d.project_id) d.id
          ⟨⟨(getOkString d.name).1⟩⟩ with
      | error e =>
        rw [resourceBranchUpdate_err meta d e hn hu] at hv
        exact hptd v hv
      | ok r =>
        rw [resourceBranchUpdate_ok meta d r hn hu] at hv
        simp [updateStateBranch] at hv
        have h0 := hupd _ _ _ r hu
        omega
  · intro ds d2 v hok hmem hv
    cases hg : meta.GetProjectBranch (getString d.project_id) d.id with
    | error e =>
      have hie : (resourceBranchImport meta d).1 = .error e := by
        simp [resourceBranchImport, resourceBranchRead_err meta d e hg]
      rw [hie] at hok
      cases hok
    | ok r =>
      have hio : (resourceBranchImport meta d).1 = .ok [updateStateBranch d r.Branch] := by
        simp [resourceBranchImport, resourceBranchRead_ok meta d r hg]
      rw [hio] at hok
      injection hok with hds
      subst hds
      simp at hmem
      subst hmem
      simp [updateStateBranch] at hv
      have h0 := hget _ _ r hg
      omega
  · intro hsucc
    cases hd : meta.DeleteProjectBranch (getString d.project_id) d.id with
    | error e =>
      rw [resourceBranchDelete_err meta d e hd] at hsucc
      simp at hsucc
    | ok r =>
      rw [resourceBranchDelete_ok meta d r hd]
      simp [updateStateBranch, zero_time_unix]

/-- C3 witness. -/
theorem branchOps_parent_timestamp_invariant_witness :
    (0:Int) ≤ 7 ∧
    (resourceBranchDelete okClient exState).1.parent_timestamp =
      some (-62135596800) :=
  have h := branchOps_parent_timestamp_invariant okClient exState
    (by intro v hv
        have hv' : (some 5 : Option Int) = some v := hv
        injection hv' with hv'
        omega)
    (by intro p cfg r hr
        have hr' : (Except.ok ⟨exBranch⟩ : Except String BranchResponse) = .ok r := hr
        injection hr' with hr'
        subst hr'
        decide)
    (by intro p i r hr
        have hr' : (Except.ok ⟨exBranch⟩ : Except String BranchResponse) = .ok r := hr
        injection hr' with hr'
        subst hr'
        decide)
    (by intro p i cfg r hr
        have hr' : (Except.ok ⟨exBranch⟩ : Except String BranchResponse) = .ok r := hr
        injection hr' with hr'
        subst hr'
        decide)
  ⟨h.1 7 (by decide), h.2.2.2.2 (by decide)⟩

end NeonBranch
